import Mathlib

set_option autoImplicit false

/-!
Shallow embedding of the insider-messaging service core, translated from the
Go sources:
  internal/domain (message entity, statuses, CanRetry),
  internal/repo (the in-memory MessageRepository implementation),
  internal/scheduler (lifecycle state machine),
  internal/service/webhook_client.go (response classification and retry policy),
  internal/service (message service: processMessage, RetryFailedMessages).

Modelling conventions:
- time.Now() is modelled by a logical clock stored in the repository state;
  every repository operation that reads the wall clock uses the current clock
  value and increments it, so distinct calls observe strictly increasing times.
- The Go map messages[int64]*Message is modelled as a list in ascending-id
  (= insertion) order together with the next id. Go map iteration order is
  unspecified; insertion order is one admissible iteration order and is the
  canonical one used here.
- Errors are modelled as Option String carrying the error text; none = nil.
- Goroutines and mutexes are not modelled. SelectUnsentForUpdate acquires only
  a shared read lock and performs no writes, so any set of concurrent calls is
  equivalent to evaluating the pure function repeatedly on the same state.
-/

namespace InsiderMessaging

/-- internal/domain: MessageStatus with the three constants pending, sent,
failed. -/
inductive MessageStatus where
  | pending
  | sent
  | failed
deriving DecidableEq, Repr

/-- internal/domain: the Message entity. Timestamps are logical clock values;
SentAt, FailedAt and ErrorMessage are nullable (Option). -/
structure Message where
  id : Int
  recipient : String
  content : String
  webhookURL : String
  status : MessageStatus
  retryCount : Int
  maxRetries : Int
  createdAt : Nat
  updatedAt : Nat
  sentAt : Option Nat
  failedAt : Option Nat
  errorMessage : Option String
deriving DecidableEq, Repr

/-- internal/domain: m.CanRetry() returns
status == failed && retryCount < maxRetries. -/
def Message.CanRetry (m : Message) : Bool :=
  m.status == MessageStatus.failed && decide (m.retryCount < m.maxRetries)

/-- internal/domain: CreateMessageRequest. -/
structure CreateMessageRequest where
  recipient : String
  content : String
  webhookURL : String
  maxRetries : Int
deriving DecidableEq, Repr

/-- domain.ErrMessageNotFound text, as returned by the in-memory repository. -/
def errMessageNotFound : String := "message not found"

/-- State of inMemoryMessageRepository: the messages map (as a list in
insertion order), the next id, and the logical clock for time.Now(). -/
structure RepoState where
  messages : List Message
  nextID : Int
  clock : Nat
deriving DecidableEq, Repr

/-- The state produced by NewInMemoryMessageRepository: empty map, nextID 1. -/
def RepoState.new : RepoState :=
  { messages := [], nextID := 1, clock := 0 }

/-- inMemoryMessageRepository.Create: defaults MaxRetries to 3 when the request
carries 0, stores a pending message with retryCount 0 and fresh timestamps,
and increments nextID. -/
def Create (s : RepoState) (req : CreateMessageRequest) : Message × RepoState :=
  let maxRetries := if req.maxRetries = 0 then 3 else req.maxRetries
  let msg : Message :=
    { id := s.nextID
      recipient := req.recipient
      content := req.content
      webhookURL := req.webhookURL
      status := MessageStatus.pending
      retryCount := 0
      maxRetries := maxRetries
      createdAt := s.clock
      updatedAt := s.clock
      sentAt := none
      failedAt := none
      errorMessage := none }
  (msg, { messages := s.messages ++ [msg], nextID := s.nextID + 1, clock := s.clock + 1 })

/-- The loop body of inMemoryMessageRepository.SelectUnsentForUpdate: iterate
over the stored messages, appending each pending message while fewer than
limit have been collected. -/
def selectUnsentLoop (limit : Int) : List Message → List Message → Int → List Message
  | [], acc, _ => acc
  | m :: rest, acc, count =>
    if m.status = MessageStatus.pending ∧ count < limit then
      selectUnsentLoop limit rest (acc ++ [m]) (count + 1)
    else
      selectUnsentLoop limit rest acc count

/-- inMemoryMessageRepository.SelectUnsentForUpdate: holds only the shared
read lock, performs no writes (the state is returned unchanged by the real
code, so no state is returned here), and collects up to limit messages whose
status is pending, in map-iteration order. -/
def SelectUnsentForUpdate (s : RepoState) (limit : Int) : List Message :=
  selectUnsentLoop limit s.messages [] 0

/-- Update every stored message carrying the given id (ids are unique, so at
most one) in place, as the Go code mutates the map entry through its pointer. -/
def updateById (l : List Message) (i : Int) (f : Message → Message) : List Message :=
  l.map (fun m => if m.id = i then f m else m)

/-- The field assignments MarkSent performs on the stored message. -/
def markSentUpdate (now : Nat) (m : Message) : Message :=
  { m with
    status := MessageStatus.sent
    sentAt := some now
    updatedAt := now }

/-- inMemoryMessageRepository.MarkSent: NotFound when the id is absent;
otherwise sets status sent, sentAt and updatedAt to now. -/
def MarkSent (s : RepoState) (messageID : Int) : Option String × RepoState :=
  if s.messages.any (fun m => m.id = messageID) then
    (none,
      { s with
        messages := updateById s.messages messageID (markSentUpdate s.clock)
        clock := s.clock + 1 })
  else
    (some errMessageNotFound, s)

/-- The field assignments MarkFailed performs on the stored message: status
failed, errorMessage, retryCount incremented, updatedAt; exactly as in the
source, failedAt is NOT assigned. -/
def markFailedUpdate (now : Nat) (errorMsg : String) (m : Message) : Message :=
  { m with
    status := MessageStatus.failed
    errorMessage := some errorMsg
    retryCount := m.retryCount + 1
    updatedAt := now }

/-- inMemoryMessageRepository.MarkFailed: NotFound when the id is absent;
otherwise applies markFailedUpdate to the stored message. -/
def MarkFailed (s : RepoState) (messageID : Int) (errorMsg : String) : Option String × RepoState :=
  if s.messages.any (fun m => m.id = messageID) then
    (none,
      { s with
        messages := updateById s.messages messageID (markFailedUpdate s.clock errorMsg)
        clock := s.clock + 1 })
  else
    (some errMessageNotFound, s)

/-- inMemoryMessageRepository.GetByID. -/
def GetByID (s : RepoState) (messageID : Int) : Option Message :=
  s.messages.find? (fun m => m.id = messageID)

/-- Go slice expression l[a:b]: defined (some) when 0 ≤ a ≤ b ≤ len(l),
otherwise a panic (none). The sentMessages slice is built by append and the
code clamps b to len before slicing, so validity against len coincides with
validity against cap here. -/
def goSlice {α : Type} (l : List α) (a b : Int) : Option (List α) :=
  if 0 ≤ a ∧ a ≤ b ∧ b ≤ (l.length : Int) then
    some ((l.drop a.toNat).take (b - a).toNat)
  else
    none

/-- inMemoryMessageRepository.GetSentMessages: filters the sent messages,
computes total, clamps start to total and the end bound start+limit to total,
returns the empty page when start ≥ total and otherwise the slice
sentMessages[start:end]. none models the Go panic of an invalid slice. -/
def GetSentMessages (s : RepoState) (offset limit : Int) : Option (List Message × Int) :=
  let sentMessages := s.messages.filter (fun m => m.status == MessageStatus.sent)
  let total : Int := sentMessages.length
  let start := if offset > total then total else offset
  let stop := if start + limit > total then total else start + limit
  if start ≥ total then
    some ([], total)
  else
    (goSlice sentMessages start stop).map (fun l => (l, total))

/-- The loop body of inMemoryMessageRepository.GetFailedMessages: collects up
to limit messages with status failed and retryCount < maxRetries. -/
def getFailedLoop (limit : Int) : List Message → List Message → Int → List Message
  | [], acc, _ => acc
  | m :: rest, acc, count =>
    if m.status = MessageStatus.failed ∧ m.retryCount < m.maxRetries ∧ count < limit then
      getFailedLoop limit rest (acc ++ [m]) (count + 1)
    else
      getFailedLoop limit rest acc count

/-- inMemoryMessageRepository.GetFailedMessages. -/
def GetFailedMessages (s : RepoState) (limit : Int) : List Message :=
  getFailedLoop limit s.messages [] 0

/-!
internal/scheduler: the lifecycle state machine. The running flag is guarded
by a mutex, so Start/Stop/IsRunning execute serially; the model applies them
to an explicit state. The two background loops, the cancellation context and
wg.Wait are concurrency mechanics outside the lifecycle flag logic and are
not part of these claims.
-/

/-- internal/scheduler: the Scheduler, reduced to the mutex-guarded lifecycle
state plus its configured cadences (durations in nanoseconds). -/
structure Scheduler where
  running : Bool
  processingInterval : Nat
  retryInterval : Nat
deriving DecidableEq, Repr

/-- Scheduler.Start: errors when already running and leaves the state
untouched; otherwise switches the flag to running (and spawns the loops,
which do not change the flag). -/
def Scheduler.Start (s : Scheduler) : Option String × Scheduler :=
  if s.running then
    (some "scheduler is already running", s)
  else
    (none, { s with running := true })

/-- Scheduler.Stop: errors when not running and leaves the state untouched;
otherwise cancels, waits for both loops and clears the flag. -/
def Scheduler.Stop (s : Scheduler) : Option String × Scheduler :=
  if !s.running then
    (some "scheduler is not running", s)
  else
    (none, { s with running := false })

/-- Scheduler.IsRunning. -/
def Scheduler.IsRunning (s : Scheduler) : Bool :=
  s.running

/-!
internal/service/webhook_client.go: outcome classification and the retry
policy built from sethvargo/go-retry:
  backoff := WithJitter(1s, WithMaxDuration(cfg.BackoffMax,
               WithMaxRetries(2, NewExponential(cfg.BackoffMin)))).
The network is abstracted as the sequence of HTTP outcomes the successive
attempts observe; the elapsed-time cap of WithMaxDuration is abstracted as
an oracle saying whether the cap has been reached when the backoff is
consulted after a given failed attempt (the exponential delays, the jitter
and the wall clock only influence that oracle, never the control flow
otherwise).
-/

/-- What one HTTP attempt observes: a transport-level failure (timeout,
connection refused, DNS failure) or a response with a status code and body. -/
inductive HTTPOutcome where
  | transportError (msg : String)
  | response (statusCode : Nat) (body : String)
deriving DecidableEq, Repr

/-- An error produced by sendHTTPRequest: retryable errors are the ones the
code wraps in retry.RetryableError, terminal ones are returned plain. The
carried string is the error text. -/
inductive SendErr where
  | retryable (msg : String)
  | terminal (msg : String)
deriving DecidableEq, Repr

/-- The error text carried by a SendErr. -/
def SendErr.message : SendErr → String
  | SendErr.retryable m => m
  | SendErr.terminal m => m

/-- webhookClient.sendHTTPRequest, classification of one attempt exactly in
the source's switch order: transport failure → retryable; 202 → success;
400..499 → plain (non-retryable) error; ≥ 500 → retryable; other 2xx →
success; anything else → plain error for an unexpected status. Payload
marshalling and request construction cannot fail for the fixed payload shape
and are not modelled. -/
def sendHTTPRequest (o : HTTPOutcome) : Option SendErr :=
  match o with
  | HTTPOutcome.transportError e =>
    some (SendErr.retryable ("HTTP request failed: " ++ e))
  | HTTPOutcome.response code body =>
    if code = 202 then
      none
    else if 400 ≤ code ∧ code < 500 then
      some (SendErr.terminal ("webhook delivery failed with status " ++ toString code ++ ": " ++ body))
    else if 500 ≤ code then
      some (SendErr.retryable ("webhook delivery failed with status " ++ toString code ++ ": " ++ body))
    else if 200 ≤ code ∧ code < 300 then
      none
    else
      some (SendErr.terminal ("webhook delivery failed with unexpected status " ++ toString code ++ ": " ++ body))

/-- retry.Do over the composed backoff, at attempt index k with fuel = 2 - k
making the recursion structural (the retry branch is taken only when k < 2,
so the fuel-0 case is only ever reached with k ≥ 2, where the backoff stops
unconditionally — both cases return the unwrapped error): run the attempt;
success returns nil; a non-retryable error is returned as-is; a retryable
error consults the backoff, which stops when the elapsed-duration cap has
been hit (durStop) or WithMaxRetries has already granted 2 retries (k ≥ 2),
in which case the unwrapped error is returned; otherwise sleep and retry.
Returns the error and the index one past the last attempt. -/
def retryDoAux (outcomes : Nat → Option SendErr) (durStop : Nat → Bool) :
    Nat → Nat → Option String × Nat
  | 0, k =>
    (match outcomes k with
     | none => (none, k + 1)
     | some (SendErr.terminal m) => (some m, k + 1)
     | some (SendErr.retryable m) => (some m, k + 1))
  | fuel + 1, k =>
    (match outcomes k with
     | none => (none, k + 1)
     | some (SendErr.terminal m) => (some m, k + 1)
     | some (SendErr.retryable m) =>
       if durStop k = true ∨ 2 ≤ k then
         (some m, k + 1)
       else
         retryDoAux outcomes durStop fuel (k + 1))

/-- retry.Do as called by SendMessage: attempts start at index 0. -/
def retryDo (outcomes : Nat → Option SendErr) (durStop : Nat → Bool) :
    Option String × Nat :=
  retryDoAux outcomes durStop 2 0

/-- webhookClient.SendMessage: succeeds immediately without any attempt when
the webhook URL is empty; otherwise runs retry.Do over sendHTTPRequest
applied to the successive network outcomes. Returns the error (none = nil)
and the number of HTTP attempts made. -/
def SendMessage (msg : Message) (net : Nat → HTTPOutcome) (durStop : Nat → Bool) :
    Option String × Nat :=
  if msg.webhookURL = "" then
    (none, 0)
  else
    retryDo (fun k => sendHTTPRequest (net k)) durStop

/-!
internal/service (message_service.go): processMessage and RetryFailedMessages
for a service configured with a webhook client. The webhook client call is
abstracted as send : Message → Option String giving the error text of
SendMessage for the message (none = delivered); the optional cache write
never touches the repository state and is ignored on failure.
-/

/-- messageService.processMessage: on webhook failure, MarkFailed with the
error text (a MarkFailed failure is itself an error), then report the
delivery failure; on webhook success, MarkSent (an error there is reported),
cache best-effort, and succeed. -/
def processMessage (send : Message → Option String) (s : RepoState) (m : Message) :
    Option String × RepoState :=
  match send m with
  | some e =>
    match MarkFailed s m.id e with
    | (some markErr, s₁) => (some ("failed to mark message as failed: " ++ markErr), s₁)
    | (none, s₁) => (some ("webhook delivery failed: " ++ e), s₁)
  | none =>
    match MarkSent s m.id with
    | (some err, s₁) => (some ("failed to mark message as sent: " ++ err), s₁)
    | (none, s₁) => (none, s₁)

/-- The loop of messageService.RetryFailedMessages: skip messages that cannot
retry; process each remaining one, and on a processing error mark the message
as failed again with the new error text (ignoring a failure of that second
MarkFailed); count the successful ones. -/
def retryFailedLoop (send : Message → Option String) :
    List Message → RepoState → Nat → RepoState × Nat
  | [], s, retried => (s, retried)
  | m :: rest, s, retried =>
    if m.CanRetry = false then
      retryFailedLoop send rest s retried
    else
      match processMessage send s m with
      | (some e, s₁) =>
        let s₂ := (MarkFailed s₁ m.id e).2
        retryFailedLoop send rest s₂ retried
      | (none, s₁) => retryFailedLoop send rest s₁ (retried + 1)

/-- messageService.RetryFailedMessages: fetch up to batchSize retryable
failed messages, then run the retry loop; returns the new state and the
retried count. -/
def RetryFailedMessages (send : Message → Option String) (s : RepoState) (batchSize : Int) :
    RepoState × Nat :=
  retryFailedLoop send (GetFailedMessages s batchSize) s 0

/-!
Spec-side predicates, written from the specification's words, used only to
compare the specified behaviour with the embedded code, plus concrete
repository states used as test vehicles.
-/

/-- From the spec's words: a message eligible for ClaimBatch, status pending
or (failed and retry_count < max_retries). -/
def specClaimEligible (m : Message) : Prop :=
  m.status = MessageStatus.pending ∨
    (m.status = MessageStatus.failed ∧ m.retryCount < m.maxRetries)

instance (m : Message) : Decidable (specClaimEligible m) := by
  unfold specClaimEligible; infer_instance

/-- From the spec's words: the ClaimBatch contract of C2 at one input — the
returned batch consists of eligible messages, as many as availability and the
limit allow, ordered oldest-created-first. -/
def specClaimBatchOk (s : RepoState) (limit : Int) : Prop :=
  (∀ m ∈ SelectUnsentForUpdate s limit, specClaimEligible m) ∧
  (SelectUnsentForUpdate s limit).length =
    min limit.toNat (s.messages.filter (fun m => decide (specClaimEligible m))).length ∧
  (SelectUnsentForUpdate s limit).Pairwise (fun a b => a.createdAt ≤ b.createdAt)

instance (s : RepoState) (limit : Int) : Decidable (specClaimBatchOk s limit) := by
  unfold specClaimBatchOk; infer_instance

/-- From the spec's words: a page ordered newest-sent-first (sent_at
non-increasing along the returned list; absent sent_at read as 0). -/
def specNewestSentFirst (l : List Message) : Prop :=
  l.Pairwise (fun a b => b.sentAt.getD 0 ≤ a.sentAt.getD 0)

instance (l : List Message) : Decidable (specNewestSentFirst l) := by
  unfold specNewestSentFirst; infer_instance

/-- A concrete creation request. -/
def reqA : CreateMessageRequest :=
  { recipient := "a@b.com", content := "hi", webhookURL := "http://x/hook", maxRetries := 3 }

/-- Store holding a single pending message (id 1). -/
def statePending : RepoState := (Create RepoState.new reqA).2

/-- Store holding a single failed message with retry_count 1 < max_retries 3. -/
def stateFailed : RepoState := (MarkFailed statePending 1 ("boom")).2

/-- Store holding a single sent message (id 1). -/
def stateSent : RepoState := (MarkSent statePending 1).2

/-- Store with two messages, message 1 marked sent before message 2, so in
insertion order the older send comes first. -/
def stateTwoSent : RepoState :=
  (MarkSent (MarkSent (Create (Create RepoState.new reqA).2 reqA).2 1).2 2).2

/-- Create one message and immediately mark it sent. -/
def addSentMessage (s : RepoState) : RepoState :=
  let (m, s₁) := Create s reqA
  (MarkSent s₁ m.id).2

/-- Store with n sent messages. -/
def stateSentN : Nat → RepoState
  | 0 => RepoState.new
  | n + 1 => addSentMessage (stateSentN n)

/-- The page GetSentMessages returns on stateTwoSent with offset 0, limit 10. -/
def sentPage : List Message :=
  ((GetSentMessages stateTwoSent 0 10).getD ([], 0)).1

/-- The stored snapshot of the failed message of stateFailed. -/
def mFailed : Message :=
  { id := 1, recipient := "a@b.com", content := "hi", webhookURL := "http://x/hook",
    status := MessageStatus.failed, retryCount := 1, maxRetries := 3,
    createdAt := 0, updatedAt := 1, sentAt := none, failedAt := none,
    errorMessage := some ("boom") }

/-- A webhook client whose delivery always fails with error text x. -/
def sendFail : Message → Option String := fun _ => some ("x")

/-- The message produced by Create on the fresh store. -/
def msgA : Message := (Create RepoState.new reqA).1

/-- A network on which every attempt draws a 500 response. -/
def net500 : Nat → HTTPOutcome := fun _ => HTTPOutcome.response 500 ("err")

/-- A run on which the elapsed-duration cap never fires. -/
def dsFalse : Nat → Bool := fun _ => false

/-- A scheduler in the Running state. -/
def schedRunning : Scheduler :=
  { running := true, processingInterval := 30, retryInterval := 300 }

/-- A scheduler in the Stopped state. -/
def schedStopped : Scheduler :=
  { running := false, processingInterval := 30, retryInterval := 300 }

/-- The stored snapshot of the sent message of stateSent. -/
def mSent : Message :=
  { id := 1, recipient := "a@b.com", content := "hi", webhookURL := "http://x/hook",
    status := MessageStatus.sent, retryCount := 0, maxRetries := 3,
    createdAt := 0, updatedAt := 1, sentAt := some 1, failedAt := none,
    errorMessage := none }

/-!
Theorems. General lemmas about the loops and the keyed update come first,
then one theorem per claim (with its witness or counterexample).
-/

/-- The SelectUnsentForUpdate loop collects the pending messages in iteration
order, truncated at the remaining budget. -/
theorem selectUnsentLoop_eq (limit : Int) :
    ∀ (msgs acc : List Message) (count : Int),
      selectUnsentLoop limit msgs acc count =
        acc ++ (msgs.filter (fun m => m.status == MessageStatus.pending)).take
          (limit - count).toNat := by
  intro msgs
  induction msgs with
  | nil => intro acc count; simp [selectUnsentLoop]
  | cons m rest ih =>
    intro acc count
    by_cases hp : m.status = MessageStatus.pending
    · by_cases hc : count < limit
      · rw [selectUnsentLoop, if_pos ⟨hp, hc⟩, ih]
        have h1 : (limit - count).toNat = (limit - (count + 1)).toNat + 1 := by omega
        simp [List.filter_cons, hp, h1, List.append_assoc]
      · rw [selectUnsentLoop, if_neg (by tauto), ih]
        have h0 : (limit - count).toNat = 0 := by omega
        simp [h0]
    · rw [selectUnsentLoop, if_neg (by tauto), ih]
      simp [List.filter_cons, hp]

/-- SelectUnsentForUpdate equals filtering the pending messages and taking
the first limit of them (a negative limit yields the empty batch). -/
theorem SelectUnsentForUpdate_eq (s : RepoState) (limit : Int) :
    SelectUnsentForUpdate s limit =
      (s.messages.filter (fun m => m.status == MessageStatus.pending)).take limit.toNat := by
  rw [SelectUnsentForUpdate, selectUnsentLoop_eq]
  simp

/-- The GetFailedMessages loop collects the retryable failed messages
(exactly the CanRetry ones) in iteration order, truncated at the budget. -/
theorem getFailedLoop_eq (limit : Int) :
    ∀ (msgs acc : List Message) (count : Int),
      getFailedLoop limit msgs acc count =
        acc ++ (msgs.filter Message.CanRetry).take (limit - count).toNat := by
  intro msgs
  induction msgs with
  | nil => intro acc count; simp [getFailedLoop]
  | cons m rest ih =>
    intro acc count
    by_cases hp : m.status = MessageStatus.failed ∧ m.retryCount < m.maxRetries
    · have hcr : m.CanRetry = true := by
        simp [Message.CanRetry, hp.1, hp.2]
      by_cases hc : count < limit
      · rw [getFailedLoop, if_pos ⟨hp.1, hp.2, hc⟩, ih]
        have h1 : (limit - count).toNat = (limit - (count + 1)).toNat + 1 := by omega
        simp [List.filter_cons, hcr, h1, List.append_assoc]
      · rw [getFailedLoop, if_neg (by tauto), ih]
        have h0 : (limit - count).toNat = 0 := by omega
        simp [h0]
    · have hcr : m.CanRetry = false := by
        simp only [Message.CanRetry, Bool.and_eq_false_iff]
        by_cases h1 : m.status = MessageStatus.failed
        · right
          simp only [decide_eq_false_iff_not]
          intro h2
          exact hp ⟨h1, h2⟩
        · left
          simp [h1]
      rw [getFailedLoop, if_neg (by tauto), ih]
      simp [List.filter_cons, hcr]

/-- GetFailedMessages equals filtering the CanRetry messages and taking the
first limit of them. -/
theorem GetFailedMessages_eq (s : RepoState) (limit : Int) :
    GetFailedMessages s limit = (s.messages.filter Message.CanRetry).take limit.toNat := by
  rw [GetFailedMessages, getFailedLoop_eq]
  simp

/-- The batch GetFailedMessages returns is a sublist of the store. -/
theorem GetFailedMessages_sublist (s : RepoState) (limit : Int) :
    (GetFailedMessages s limit).Sublist s.messages := by
  rw [GetFailedMessages_eq]
  exact (List.take_sublist _ _).trans (List.filter_sublist _)

/-- Every message in a GetFailedMessages batch satisfies CanRetry. -/
theorem GetFailedMessages_canRetry (s : RepoState) (limit : Int) (m : Message)
    (hm : m ∈ GetFailedMessages s limit) : m.CanRetry = true := by
  rw [GetFailedMessages_eq] at hm
  exact (List.mem_filter.mp (List.mem_of_mem_take hm)).2

/-- When the stored ids are distinct, looking a member up by its id returns
that member. -/
theorem find?_of_mem_nodup (l : List Message) (m : Message)
    (hnd : (l.map Message.id).Nodup) (hm : m ∈ l) :
    l.find? (fun x => x.id = m.id) = some m := by
  induction l with
  | nil => cases hm
  | cons h t ih =>
    rw [List.map_cons, List.nodup_cons] at hnd
    rcases List.mem_cons.mp hm with rfl | hmt
    · simp
    · have hne : h.id ≠ m.id := by
        intro he
        exact hnd.1 (he ▸ List.mem_map_of_mem Message.id hmt)
      rw [List.find?_cons_of_neg _ (by simpa using hne), ih hnd.2 hmt]

/-- If a lookup by id succeeds, the membership test any succeeds. -/
theorem any_of_find? (l : List Message) (i : Int) (m : Message)
    (hm : l.find? (fun x => x.id = i) = some m) :
    l.any (fun x => x.id = i) = true := by
  have h1 := List.mem_of_find?_eq_some hm
  have h2 := List.find?_some hm
  exact List.any_eq_true.mpr ⟨m, h1, h2⟩

/-- Updating the entry with key i rewrites the lookup at i through f,
provided f preserves the id. -/
theorem find?_updateById_self (l : List Message) (i : Int) (f : Message → Message)
    (hf : ∀ m, (f m).id = m.id) :
    (updateById l i f).find? (fun x => x.id = i) =
      (l.find? (fun x => x.id = i)).map f := by
  induction l with
  | nil => simp [updateById]
  | cons h t ih =>
    by_cases hh : h.id = i
    · rw [updateById, List.map_cons, if_pos hh,
        List.find?_cons_of_pos _ (by simpa using (hf h).trans hh),
        List.find?_cons_of_pos _ (by simpa using hh)]
      simp
    · rw [updateById, List.map_cons, if_neg hh,
        List.find?_cons_of_neg _ (by simpa using hh),
        List.find?_cons_of_neg _ (by simpa using hh)]
      exact ih

/-- Updating the entry with key i leaves lookups at other keys unchanged,
provided f preserves the id. -/
theorem find?_updateById_ne (l : List Message) (i j : Int) (f : Message → Message)
    (hf : ∀ m, (f m).id = m.id) (hne : j ≠ i) :
    (updateById l i f).find? (fun x => x.id = j) = l.find? (fun x => x.id = j) := by
  induction l with
  | nil => simp [updateById]
  | cons h t ih =>
    by_cases hh : h.id = i
    · have hj : (f h).id ≠ j := by rw [hf h, hh]; exact fun he => hne he.symm
      have hj2 : h.id ≠ j := by rw [hh]; exact fun he => hne he.symm
      rw [updateById, List.map_cons, if_pos hh,
        List.find?_cons_of_neg _ (by simpa using hj),
        List.find?_cons_of_neg _ (by simpa using hj2)]
      exact ih
    · by_cases hj : h.id = j
      · rw [updateById, List.map_cons, if_neg hh,
          List.find?_cons_of_pos _ (by simpa using hj),
          List.find?_cons_of_pos _ (by simpa using hj)]
      · rw [updateById, List.map_cons, if_neg hh,
          List.find?_cons_of_neg _ (by simpa using hj),
          List.find?_cons_of_neg _ (by simpa using hj)]
        exact ih

/-- MarkFailed on an id that is present succeeds and applies markFailedUpdate
to the stored entry. -/
theorem MarkFailed_self (s : RepoState) (i : Int) (e : String) (m : Message)
    (hm : GetByID s i = some m) :
    (MarkFailed s i e).1 = none ∧
      GetByID (MarkFailed s i e).2 i = some (markFailedUpdate s.clock e m) := by
  have hany := any_of_find? s.messages i m hm
  rw [MarkFailed, if_pos hany]
  refine ⟨rfl, ?_⟩
  rw [GetByID]
  show (updateById s.messages i (markFailedUpdate s.clock e)).find? (fun x => x.id = i) = _
  rw [find?_updateById_self s.messages i (markFailedUpdate s.clock e) (fun _ => rfl)]
  rw [GetByID] at hm
  rw [hm, Option.map_some']

/-- MarkFailed leaves entries with other ids unchanged, whether or not it
succeeds. -/
theorem MarkFailed_ne (s : RepoState) (i j : Int) (e : String) (hne : j ≠ i) :
    GetByID (MarkFailed s i e).2 j = GetByID s j := by
  rw [MarkFailed]
  by_cases hany : s.messages.any (fun m => m.id = i) = true
  · rw [if_pos hany, GetByID, GetByID]
    exact find?_updateById_ne _ _ _ _ (fun _ => rfl) hne
  · rw [if_neg hany]

/-- MarkSent on an id that is present succeeds and applies markSentUpdate to
the stored entry. -/
theorem MarkSent_self (s : RepoState) (i : Int) (m : Message)
    (hm : GetByID s i = some m) :
    (MarkSent s i).1 = none ∧
      GetByID (MarkSent s i).2 i = some (markSentUpdate s.clock m) := by
  have hany := any_of_find? s.messages i m hm
  rw [MarkSent, if_pos hany]
  refine ⟨rfl, ?_⟩
  rw [GetByID]
  show (updateById s.messages i (markSentUpdate s.clock)).find? (fun x => x.id = i) = _
  rw [find?_updateById_self s.messages i (markSentUpdate s.clock) (fun _ => rfl)]
  rw [GetByID] at hm
  rw [hm, Option.map_some']

/-- MarkSent leaves entries with other ids unchanged, whether or not it
succeeds. -/
theorem MarkSent_ne (s : RepoState) (i j : Int) (hne : j ≠ i) :
    GetByID (MarkSent s i).2 j = GetByID s j := by
  rw [MarkSent]
  by_cases hany : s.messages.any (fun m => m.id = i) = true
  · rw [if_pos hany, GetByID, GetByID]
    exact find?_updateById_ne _ _ _ _ (fun _ => rfl) hne
  · rw [if_neg hany]

/-- processMessage touches only the entry of the message it processes. -/
theorem processMessage_ne (send : Message → Option String) (s : RepoState)
    (m : Message) (j : Int) (hne : j ≠ m.id) :
    GetByID (processMessage send s m).2 j = GetByID s j := by
  rw [processMessage]
  cases hsend : send m with
  | some e =>
    rcases hmf : MarkFailed s m.id e with ⟨err, s₁⟩
    have hpre : GetByID s₁ j = GetByID s j := by
      have h := MarkFailed_ne s m.id j e hne
      rw [hmf] at h
      exact h
    dsimp only
    rw [hmf]
    cases err with
    | some markErr => exact hpre
    | none => exact hpre
  | none =>
    rcases hms : MarkSent s m.id with ⟨err, s₁⟩
    have hpre : GetByID s₁ j = GetByID s j := by
      have h := MarkSent_ne s m.id j hne
      rw [hms] at h
      exact h
    dsimp only
    cases err with
    | some err2 => exact hpre
    | none => exact hpre

/-- The RetryFailedMessages loop never touches entries whose id is not in the
batch. -/
theorem retryFailedLoop_preserves (send : Message → Option String) :
    ∀ (batch : List Message) (s : RepoState) (r : Nat) (j : Int),
      (∀ x ∈ batch, x.id ≠ j) →
      GetByID (retryFailedLoop send batch s r).1 j = GetByID s j := by
  intro batch
  induction batch with
  | nil => intro s r j _; rfl
  | cons h t ih =>
    intro s r j hj
    have hh : j ≠ h.id := (hj h (List.mem_cons_self h t)).symm
    have hjt : ∀ x ∈ t, x.id ≠ j := fun x hx => hj x (List.mem_cons_of_mem h hx)
    rw [retryFailedLoop]
    by_cases hcr : h.CanRetry = false
    · rw [if_pos hcr]
      exact ih s r j hjt
    · rw [if_neg hcr]
      rcases hpm : processMessage send s h with ⟨perr, s₁⟩
      have h1 : GetByID s₁ j = GetByID s j := by
        have hx := processMessage_ne send s h j hh
        rw [hpm] at hx
        exact hx
      cases perr with
      | some e =>
        dsimp only
        rw [ih (MarkFailed s₁ h.id e).2 r j hjt, MarkFailed_ne s₁ h.id j e hh, h1]
      | none =>
        dsimp only
        rw [ih s₁ (r + 1) j hjt, h1]

/-- Core of C9: along the RetryFailedMessages loop, a batch member whose
delivery fails is marked failed twice — once inside processMessage and once
again in the loop — so its stored retry count grows by exactly 2. -/
theorem retryFailedLoop_double (send : Message → Option String) (e : String) (m : Message) :
    ∀ (batch : List Message) (s : RepoState) (r : Nat),
      (batch.map Message.id).Nodup → m ∈ batch → m.CanRetry = true → send m = some e →
      (∃ mc, GetByID s m.id = some mc ∧ mc.retryCount = m.retryCount) →
      ∃ m₂, GetByID (retryFailedLoop send batch s r).1 m.id = some m₂ ∧
        m₂.retryCount = m.retryCount + 2 ∧ m₂.status = MessageStatus.failed := by
  intro batch
  induction batch with
  | nil => intro s r _ hm; cases hm
  | cons h t ih =>
    intro s r hnd hm hcr hsend hcur
    rw [List.map_cons, List.nodup_cons] at hnd
    rcases List.mem_cons.mp hm with rfl | hmt
    · -- the head of the batch is the target message
      obtain ⟨mc, hmc, hrc⟩ := hcur
      rw [retryFailedLoop, if_neg (by rw [hcr]; simp)]
      have hpm : processMessage send s m =
          (some ("webhook delivery failed: " ++ e), (MarkFailed s m.id e).2) := by
        rw [processMessage, hsend]
        dsimp only
        rcases hmf : MarkFailed s m.id e with ⟨err, s₁⟩
        have herr : err = none := by
          have hfst := (MarkFailed_self s m.id e mc hmc).1
          rw [hmf] at hfst
          exact hfst
        subst herr
        rfl
      rw [hpm]
      dsimp only
      have hstep1 : GetByID (MarkFailed s m.id e).2 m.id =
          some (markFailedUpdate s.clock e mc) :=
        (MarkFailed_self s m.id e mc hmc).2
      have hstep2 : GetByID (MarkFailed (MarkFailed s m.id e).2 m.id
            ("webhook delivery failed: " ++ e)).2 m.id =
          some (markFailedUpdate (MarkFailed s m.id e).2.clock
            ("webhook delivery failed: " ++ e) (markFailedUpdate s.clock e mc)) :=
        (MarkFailed_self (MarkFailed s m.id e).2 m.id ("webhook delivery failed: " ++ e)
          (markFailedUpdate s.clock e mc) hstep1).2
      have hrest : ∀ x ∈ t, x.id ≠ m.id := by
        intro x hx he
        exact hnd.1 (he ▸ List.mem_map_of_mem Message.id hx)
      rw [retryFailedLoop_preserves send t _ r m.id hrest, hstep2]
      refine ⟨_, rfl, ?_, rfl⟩
      simp [markFailedUpdate, hrc]
      omega
    · -- the target message sits further down the batch
      have hne : m.id ≠ h.id := by
        intro he
        exact hnd.1 (he ▸ List.mem_map_of_mem Message.id hmt)
      rw [retryFailedLoop]
      by_cases hhcr : h.CanRetry = false
      · rw [if_pos hhcr]
        exact ih s r hnd.2 hmt hcr hsend hcur
      · rw [if_neg hhcr]
        rcases hpm : processMessage send s h with ⟨perr, s₁⟩
        have h1 : GetByID s₁ m.id = GetByID s m.id := by
          have hx := processMessage_ne send s h m.id hne
          rw [hpm] at hx
          exact hx
        cases perr with
        | some e2 =>
          dsimp only
          refine ih (MarkFailed s₁ h.id e2).2 r hnd.2 hmt hcr hsend ?_
          obtain ⟨mc, hmc, hrc⟩ := hcur
          refine ⟨mc, ?_, hrc⟩
          rw [MarkFailed_ne s₁ h.id m.id e2 hne, h1, hmc]
        | none =>
          dsimp only
          refine ih s₁ (r + 1) hnd.2 hmt hcr hsend ?_
          obtain ⟨mc, hmc, hrc⟩ := hcur
          exact ⟨mc, by rw [h1, hmc], hrc⟩

/-- C1: the in-memory SelectUnsentForUpdate performs no claiming — it takes
only the shared read lock and leaves the state untouched — so every
concurrent caller evaluates it on the same state and receives the same
messages: on a store holding one pending message, both of two concurrent
ClaimBatch(1) callers receive message 1, so the returned sets are not
pairwise disjoint as the claim requires. -/
theorem claimBatch_not_exclusive :
    (SelectUnsentForUpdate statePending 1).map Message.id = [1] ∧
    ¬ (∀ x ∈ SelectUnsentForUpdate statePending 1,
        x ∉ SelectUnsentForUpdate statePending 1) := by
  decide

/-- C2 (counterexample): on a store holding exactly one failed message with
retry_count 1 < max_retries 3 — eligible under the claim — ClaimBatch(1)
returns the empty batch, so the claimed contract (eligible messages up to
limit and availability, oldest-created-first) fails. -/
theorem selectUnsent_misses_failed_retryable :
    SelectUnsentForUpdate stateFailed 1 = [] ∧
    (stateFailed.messages.filter (fun m => decide (specClaimEligible m))).length = 1 ∧
    ¬ specClaimBatchOk stateFailed 1 := by
  decide

/-- C2 (amended): for every repository state and limit, the in-memory
SelectUnsentForUpdate returns only messages with status pending — failed
retryable messages are never returned (GetFailedMessages serves those) — as
a sublist of the store in map-iteration order, of length
min(limit, number of pending messages). -/
theorem selectUnsent_returns_pending_only (s : RepoState) (limit : Int) :
    (∀ m ∈ SelectUnsentForUpdate s limit, m.status = MessageStatus.pending) ∧
    (SelectUnsentForUpdate s limit).Sublist s.messages ∧
    (SelectUnsentForUpdate s limit).length =
      min limit.toNat
        ((s.messages.filter (fun m => m.status == MessageStatus.pending)).length) := by
  rw [SelectUnsentForUpdate_eq]
  refine ⟨?_, ?_, ?_⟩
  · intro m hm
    have h1 := (List.mem_filter.mp (List.mem_of_mem_take hm)).2
    simpa using h1
  · exact (List.take_sublist _ _).trans (List.filter_sublist _)
  · exact List.length_take _ _

/-- C3: MarkFailed on the single stored pending message succeeds, sets
status failed, error_message, retry_count 0 → 1 and updated_at, but — the
divergence — leaves failed_at unset; on an absent id it returns NotFound and
leaves the store unchanged. -/
theorem markFailed_leaves_failedAt_unset :
    (MarkFailed statePending 1 ("boom")).1 = none ∧
    GetByID (MarkFailed statePending 1 ("boom")).2 1 = some mFailed ∧
    mFailed.status = MessageStatus.failed ∧
    mFailed.retryCount = 1 ∧
    mFailed.errorMessage = some ("boom") ∧
    mFailed.updatedAt = 1 ∧
    mFailed.failedAt = none ∧
    MarkFailed statePending 99 ("x") = (some errMessageNotFound, statePending) := by
  decide

/-- C6: the scheduler lifecycle — Start while Running errs with the
already-running error and leaves the state untouched; Stop while Stopped
errs with the not-running error and leaves the state untouched; Start
followed by Stop from a stopped scheduler ends with IsRunning false. -/
theorem scheduler_lifecycle :
    (∀ s : Scheduler, s.running = true →
      (Scheduler.Start s).1 = some ("scheduler is already running") ∧
        (Scheduler.Start s).2 = s) ∧
    (∀ s : Scheduler, s.running = false →
      (Scheduler.Stop s).1 = some ("scheduler is not running") ∧
        (Scheduler.Stop s).2 = s) ∧
    (∀ s : Scheduler, s.running = false →
      (Scheduler.Stop (Scheduler.Start s).2).1 = none ∧
        Scheduler.IsRunning (Scheduler.Stop (Scheduler.Start s).2).2 = false) := by
  refine ⟨?_, ?_, ?_⟩ <;> intro s h <;>
    simp [Scheduler.Start, Scheduler.Stop, Scheduler.IsRunning, h]

/-- C6 (witness): the lifecycle theorem applied to concrete running and
stopped schedulers. -/
theorem scheduler_lifecycle_witness :
    ((Scheduler.Start schedRunning).1 = some ("scheduler is already running") ∧
      (Scheduler.Start schedRunning).2 = schedRunning) ∧
    ((Scheduler.Stop schedStopped).1 = some ("scheduler is not running") ∧
      (Scheduler.Stop schedStopped).2 = schedStopped) ∧
    ((Scheduler.Stop (Scheduler.Start schedStopped).2).1 = none ∧
      Scheduler.IsRunning (Scheduler.Stop (Scheduler.Start schedStopped).2).2 = false) :=
  ⟨scheduler_lifecycle.1 schedRunning rfl,
   scheduler_lifecycle.2.1 schedStopped rfl,
   scheduler_lifecycle.2.2 schedStopped rfl⟩

/-- C7 (counterexample): a concrete sent → failed transition — on a store
whose single message is sent, MarkFailed succeeds and moves it to failed,
which the claim rules out. -/
theorem markFailed_on_sent_message :
    (GetByID stateSent 1).map Message.status = some MessageStatus.sent ∧
    (MarkFailed stateSent 1 ("late")).1 = none ∧
    (GetByID (MarkFailed stateSent 1 ("late")).2 1).map Message.status =
      some MessageStatus.failed := by
  decide

/-- C7 (amended): the store does not guard transitions — MarkFailed moves
any existing message, including a sent one, to failed, so a message is not
immutable once sent and sent → failed transitions occur. -/
theorem sent_message_not_immutable (s : RepoState) (i : Int) (e : String) (m : Message)
    (hm : GetByID s i = some m) (_hs : m.status = MessageStatus.sent) :
    (MarkFailed s i e).1 = none ∧
    (GetByID (MarkFailed s i e).2 i).map Message.status = some MessageStatus.failed := by
  obtain ⟨h1, h2⟩ := MarkFailed_self s i e m hm
  exact ⟨h1, by rw [h2]; rfl⟩

/-- C7 (witness): the amended theorem applied to the concrete sent store. -/
theorem sent_message_not_immutable_witness :
    (MarkFailed stateSent 1 ("late2")).1 = none ∧
    (GetByID (MarkFailed stateSent 1 ("late2")).2 1).map Message.status =
      some MessageStatus.failed :=
  sent_message_not_immutable stateSent 1 ("late2") mSent (by decide) (by decide)

/-- C9: in RetryFailedMessages, a claimed failed message whose delivery
fails is marked failed twice — once inside processMessage and once more in
the retry loop — so its stored retry_count ends exactly 2 above the claimed
snapshot's, and its status stays failed. -/
theorem retryFailed_increments_twice (send : Message → Option String) (s : RepoState)
    (limit : Int) (m : Message) (e : String)
    (hids : (s.messages.map Message.id).Nodup)
    (hm : m ∈ GetFailedMessages s limit)
    (hsend : send m = some e) :
    ∃ m₂, GetByID (RetryFailedMessages send s limit).1 m.id = some m₂ ∧
      m₂.retryCount = m.retryCount + 2 ∧ m₂.status = MessageStatus.failed := by
  have hcr := GetFailedMessages_canRetry s limit m hm
  have hsub := GetFailedMessages_sublist s limit
  have hnd : ((GetFailedMessages s limit).map Message.id).Nodup :=
    hids.sublist (hsub.map Message.id)
  have hcur : GetByID s m.id = some m :=
    find?_of_mem_nodup s.messages m hids (hsub.subset hm)
  exact retryFailedLoop_double send e m (GetFailedMessages s limit) s 0
    hnd hm hcr hsend ⟨m, hcur, rfl⟩

/-- C9 (witness): one failed message with retry_count 1, delivery failing —
after the retry pass its stored retry_count is 3. -/
theorem retryFailed_increments_twice_witness :
    ∃ m₂, GetByID (RetryFailedMessages sendFail stateFailed 10).1 mFailed.id = some m₂ ∧
      m₂.retryCount = mFailed.retryCount + 2 ∧ m₂.status = MessageStatus.failed :=
  retryFailed_increments_twice sendFail stateFailed 10 mFailed ("x")
    (by decide) (by decide) rfl

/-- C4: response classification — every 2xx response (202 included) is
success (nil error); every 4xx response is a plain non-retryable error,
and SendMessage surfaces it immediately after exactly one attempt; every
5xx response and every transport-level failure is a retryable error. -/
theorem delivery_classification :
    (∀ code body, 200 ≤ code → code < 300 →
      sendHTTPRequest (HTTPOutcome.response code body) = none) ∧
    (∀ code body, 400 ≤ code → code < 500 →
      ∃ m, sendHTTPRequest (HTTPOutcome.response code body) = some (SendErr.terminal m)) ∧
    (∀ code body, 500 ≤ code →
      ∃ m, sendHTTPRequest (HTTPOutcome.response code body) = some (SendErr.retryable m)) ∧
    (∀ e, ∃ m, sendHTTPRequest (HTTPOutcome.transportError e) = some (SendErr.retryable m)) ∧
    (∀ msg net durStop m, msg.webhookURL ≠ "" →
      sendHTTPRequest (net 0) = some (SendErr.terminal m) →
      SendMessage msg net durStop = (some m, 1)) := by
  refine ⟨?_, ?_, ?_, ?_, ?_⟩
  · intro code body h1 h2
    by_cases hc : code = 202
    · simp [sendHTTPRequest, hc]
    · have h4 : ¬(400 ≤ code ∧ code < 500) := by omega
      have h5 : ¬(500 ≤ code) := by omega
      have h2x : 200 ≤ code ∧ code < 300 := ⟨h1, h2⟩
      simp [sendHTTPRequest, hc, h4, h5, h2x]
  · intro code body h1 h2
    have hc : ¬(code = 202) := by omega
    have h4 : 400 ≤ code ∧ code < 500 := ⟨h1, h2⟩
    refine ⟨"webhook delivery failed with status " ++ toString code ++ ": " ++ body, ?_⟩
    simp [sendHTTPRequest, hc, h4]
  · intro code body h1
    have hc : ¬(code = 202) := by omega
    have h4 : ¬(400 ≤ code ∧ code < 500) := by omega
    refine ⟨"webhook delivery failed with status " ++ toString code ++ ": " ++ body, ?_⟩
    simp [sendHTTPRequest, hc, h4, h1]
  · intro e
    exact ⟨_, rfl⟩
  · intro msg net durStop m hurl hterm
    rw [SendMessage, if_neg hurl, retryDo, retryDoAux, hterm]

/-- C4 (witness): the classification applied at 250, 404, 503, a transport
failure, and a one-attempt terminal SendMessage run. -/
theorem delivery_classification_witness :
    sendHTTPRequest (HTTPOutcome.response 250 ("ok")) = none ∧
    (∃ m, sendHTTPRequest (HTTPOutcome.response 404 ("nf")) = some (SendErr.terminal m)) ∧
    (∃ m, sendHTTPRequest (HTTPOutcome.response 503 ("down")) = some (SendErr.retryable m)) ∧
    (∃ m, sendHTTPRequest (HTTPOutcome.transportError ("refused")) =
      some (SendErr.retryable m)) ∧
    SendMessage msgA (fun _ => HTTPOutcome.response 404 ("nf")) dsFalse =
      (some ("webhook delivery failed with status 404: nf"), 1) :=
  ⟨delivery_classification.1 250 ("ok") (by decide) (by decide),
   delivery_classification.2.1 404 ("nf") (by decide) (by decide),
   delivery_classification.2.2.1 503 ("down") (by decide),
   delivery_classification.2.2.2.1 ("refused"),
   delivery_classification.2.2.2.2 msgA (fun _ => HTTPOutcome.response 404 ("nf")) dsFalse
     ("webhook delivery failed with status 404: nf") (by decide) (by decide)⟩

/-- C5: on a non-empty webhook URL, when every attempt fails with a
retryable error, SendMessage makes at most 3 HTTP attempts (exactly 3 when
the elapsed-duration cap never fires) and returns the retryable-class error
of its last attempt to the caller. -/
theorem sendMessage_retry_budget (msg : Message) (net : Nat → HTTPOutcome)
    (durStop : Nat → Bool) (hurl : msg.webhookURL ≠ "")
    (hretry : ∀ k, ∃ m, sendHTTPRequest (net k) = some (SendErr.retryable m)) :
    (SendMessage msg net durStop).2 ≤ 3 ∧
    (∃ m, (SendMessage msg net durStop).1 = some m ∧
      sendHTTPRequest (net ((SendMessage msg net durStop).2 - 1)) =
        some (SendErr.retryable m)) ∧
    ((∀ k, durStop k = false) → (SendMessage msg net durStop).2 = 3) := by
  obtain ⟨m0, h0⟩ := hretry 0
  obtain ⟨m1, h1⟩ := hretry 1
  obtain ⟨m2, h2⟩ := hretry 2
  rw [SendMessage, if_neg hurl, retryDo]
  by_cases hd0 : durStop 0 = true
  · have heq : retryDoAux (fun k => sendHTTPRequest (net k)) durStop 2 0 = (some m0, 1) := by
      rw [retryDoAux.eq_def]
      dsimp only
      rw [h0]
      dsimp only
      rw [if_pos (Or.inl hd0)]
    rw [heq]
    refine ⟨by omega, ⟨m0, rfl, by simpa using h0⟩, ?_⟩
    intro hall
    rw [hall 0] at hd0
    cases hd0
  · by_cases hd1 : durStop 1 = true
    · have heq : retryDoAux (fun k => sendHTTPRequest (net k)) durStop 2 0 = (some m1, 2) := by
        rw [retryDoAux.eq_def]
        dsimp only
        rw [h0]
        dsimp only
        rw [if_neg (by simp [hd0]), retryDoAux.eq_def]
        dsimp only
        rw [h1]
        dsimp only
        rw [if_pos (Or.inl hd1)]
      rw [heq]
      refine ⟨by omega, ⟨m1, rfl, by simpa using h1⟩, ?_⟩
      intro hall
      rw [hall 1] at hd1
      cases hd1
    · have heq : retryDoAux (fun k => sendHTTPRequest (net k)) durStop 2 0 = (some m2, 3) := by
        rw [retryDoAux.eq_def]
        dsimp only
        rw [h0]
        dsimp only
        rw [if_neg (by simp [hd0]), retryDoAux.eq_def]
        dsimp only
        rw [h1]
        dsimp only
        rw [if_neg (by simp [hd1]), retryDoAux.eq_def]
        dsimp only
        rw [h2]
      rw [heq]
      exact ⟨by omega, ⟨m2, rfl, by simpa using h2⟩, fun _ => rfl⟩

/-- C5 (witness): every attempt draws a 500 response and the duration cap
never fires — 3 attempts are made and the 500 error is returned. -/
theorem sendMessage_retry_budget_witness :
    (SendMessage msgA net500 dsFalse).2 ≤ 3 ∧
    (∃ m, (SendMessage msgA net500 dsFalse).1 = some m ∧
      sendHTTPRequest (net500 ((SendMessage msgA net500 dsFalse).2 - 1)) =
        some (SendErr.retryable m)) ∧
    ((∀ k, dsFalse k = false) → (SendMessage msgA net500 dsFalse).2 = 3) :=
  sendMessage_retry_budget msgA net500 dsFalse (by decide)
    (fun _ => ⟨"webhook delivery failed with status 500: err", rfl⟩)

/-- C8 (counterexample): on a store where message 1 was marked sent before
message 2, the returned page lists message 1 (sent at 2) before message 2
(sent at 3) — map-iteration order — so the page is not ordered
newest-sent-first as the claim requires. -/
theorem getSentMessages_not_newest_first :
    GetSentMessages stateTwoSent 0 10 = some (sentPage, 2) ∧
    sentPage.map Message.sentAt = [some 2, some 3] ∧
    ¬ specNewestSentFirst sentPage := by
  decide

/-- C8 (amended): every page GetSentMessages returns contains only messages
with status sent together with the total count of all sent messages — the
order is the store's map-iteration order, not newest-sent-first — and on a
store with 25 sent messages, offset 10 and limit 10 yield 10 records and
total 25. -/
theorem getSentMessages_sent_only_with_total :
    (∀ (s : RepoState) (offset limit : Int) (out : List Message) (total : Int),
        GetSentMessages s offset limit = some (out, total) →
        (∀ m ∈ out, m.status = MessageStatus.sent) ∧
        total =
          ((s.messages.filter (fun m => m.status == MessageStatus.sent)).length : Int)) ∧
    (GetSentMessages (stateSentN 25) 10 10).map (fun p => (p.1.length, p.2)) =
      some (10, 25) := by
  constructor
  · intro s offset limit out total h
    simp only [GetSentMessages, goSlice] at h
    split_ifs at h <;>
    first
    | (rw [Option.some.injEq, Prod.mk.injEq] at h
       obtain ⟨hout, htot⟩ := h
       subst hout
       subst htot
       exact ⟨fun m hm => absurd hm (List.not_mem_nil m), rfl⟩)
    | (rw [Option.map_none'] at h
       exact Option.noConfusion h)
    | (rw [Option.map_some', Option.some.injEq, Prod.mk.injEq] at h
       obtain ⟨hout, htot⟩ := h
       subst hout
       subst htot
       refine ⟨?_, rfl⟩
       intro m hm
       have hmem : m ∈ s.messages.filter (fun x => x.status == MessageStatus.sent) :=
         ((List.take_sublist _ _).trans (List.drop_sublist _ _)).subset hm
       simpa using (List.mem_filter.mp hmem).2)
  · set_option maxRecDepth 8000 in decide

/-- C8 (witness): the page part of the amended theorem applied at the
concrete two-sent store. -/
theorem getSentMessages_sent_only_with_total_witness :
    (∀ m ∈ sentPage, m.status = MessageStatus.sent) ∧
    (2 : Int) =
      ((stateTwoSent.messages.filter (fun m => m.status == MessageStatus.sent)).length : Int) :=
  getSentMessages_sent_only_with_total.1 stateTwoSent 0 10 sentPage 2 (by decide)

/-- C10: for every repository state, GetSentMessages with a negative offset
reaches the slice expression with a negative lower bound and panics (none),
while for every offset ≥ 0 and limit ≥ 0 the bounds are clamped and the call
returns normally (some). -/
theorem getSentMessages_negative_offset_panics (s : RepoState) (offset limit : Int) :
    (offset < 0 → GetSentMessages s offset limit = none) ∧
    (0 ≤ offset → 0 ≤ limit → (GetSentMessages s offset limit).isSome = true) := by
  have hlen : (0 : Int) ≤
      ((s.messages.filter (fun m => m.status == MessageStatus.sent)).length : Int) :=
    Int.natCast_nonneg _
  constructor
  · intro hneg
    simp only [GetSentMessages, goSlice]
    split_ifs <;> first | rfl | (exfalso; omega)
  · intro hoff hlim
    simp only [GetSentMessages, goSlice]
    split_ifs <;> first | rfl | (exfalso; omega)

/-- C10 (witness): on the concrete two-sent store, offset -1 panics (none)
and offset 1 with limit 1 returns normally. -/
theorem getSentMessages_negative_offset_panics_witness :
    GetSentMessages stateTwoSent (-1) 10 = none ∧
    (GetSentMessages stateTwoSent 1 1).isSome = true :=
  ⟨(getSentMessages_negative_offset_panics stateTwoSent (-1) 10).1 (by decide),
   (getSentMessages_negative_offset_panics stateTwoSent 1 1).2 (by decide) (by decide)⟩

end InsiderMessaging
